import Mathlib

/-!
Verification of the CodeCrawl directory-metrics tool (src/index.js).

The development shallowly embeds the two core components of the program:

* the per-file line classifier `getFileMetrics` together with the
  eligibility test `isValidFile` (src/index.js lines 10-47), and
* the recursive directory walk `processDirectory` (src/index.js lines
  49-105) over an inductive model of a directory tree,
* the average computations of the presentation layer `printMetrics`
  (src/index.js lines 118-122), modelled over rationals,
* a second, fallible model of the walk over trees whose reads may fail,
  mirroring the fact that `fs.readdirSync` / `fs.readFileSync` throw.

File contents are strings; a line is represented as a `List Char` so that
trimming and substring tests are ordinary list operations.  JavaScript
`String.prototype.trim` is modelled with `Char.isWhitespace`, and
JavaScript `String.prototype.length` (UTF-16 code units) with the length
of the character list, which agrees on the ASCII inputs at issue.
-/

/-- The single-line comment marker `//` (src/index.js line 27). -/
def slcMarker : List Char := ['/', '/']

/-- The block-comment-open marker (src/index.js line 27). -/
def boMarker : List Char := ['/', '*']

/-- The block-comment-close marker (src/index.js line 27). -/
def bcMarker : List Char := ['*', '/']

/-- JavaScript `line.trim()`: drop whitespace from both ends. -/
def jsTrim (l : List Char) : List Char :=
  ((l.dropWhile (fun c => c.isWhitespace)).reverse.dropWhile (fun c => c.isWhitespace)).reverse

/-- JavaScript `content.split('\n')` on a character list: `[]` input gives
one empty line, and each `'\n'` starts a new line (so a trailing newline
produces a final empty line), exactly like `String.prototype.split`. -/
def splitNl : List Char → List (List Char)
  | [] => [[]]
  | c :: t =>
    let r := splitNl t
    if c = '\n' then [] :: r
    else (c :: r.headD []) :: r.tail

/-- The blank-line test `!line.trim()` (src/index.js line 33). -/
def isBlankLine (line : List Char) : Bool := (jsTrim line).isEmpty

/-- The comment-line filter of src/index.js lines 29-32: the trimmed line
starts with `//`, starts with the block-open marker, or ends with the
block-close marker. -/
def isCommentLine (line : List Char) : Bool :=
  let t := jsTrim line
  decide (slcMarker <+: t) || decide (boMarker <+: t) || decide (bcMarker <:+ t)

/-- The `nonCommentNonEmptyLines` filter of src/index.js lines 25-28: the
trimmed line is truthy (non-empty) and satisfies none of the three
comment-marker conditions. -/
def isCodeLine (line : List Char) : Bool :=
  let t := jsTrim line
  !t.isEmpty && !(decide (slcMarker <+: t)) && !(decide (boMarker <+: t))
    && !(decide (bcMarker <:+ t))

/-- The `codeAndCommentLines` filter of src/index.js lines 34-37: the
trimmed line is non-empty and contains one of the three markers. -/
def isMixedLine (line : List Char) : Bool :=
  let t := jsTrim line
  !t.isEmpty && (decide (slcMarker <:+: t) || decide (boMarker <:+: t)
    || decide (bcMarker <:+: t))

/-- The record returned by `getFileMetrics` (src/index.js lines 39-46).
`lines` is the code-line count, `codeAndCommentLines` the mixed-line
count. -/
structure FileMetrics where
  lines : Nat
  characters : Nat
  commentLines : Nat
  blankLines : Nat
  codeAndCommentLines : Nat
  totalLines : Nat
deriving Repr, DecidableEq

/-- `getFileMetrics` of src/index.js lines 22-47, with the file content
passed directly instead of read from disk. -/
def getFileMetrics (content : String) : FileMetrics :=
  let lines := splitNl content.toList
  let nonCommentNonEmptyLines := lines.filter isCodeLine
  let commentLinesList := lines.filter isCommentLine
  let blankLinesList := lines.filter isBlankLine
  let codeAndCommentLinesList := lines.filter isMixedLine
  { lines := nonCommentNonEmptyLines.length,
    characters := (List.intercalate ['\n'] nonCommentNonEmptyLines).length,
    commentLines := commentLinesList.length,
    blankLines := blankLinesList.length,
    codeAndCommentLines := codeAndCommentLinesList.length,
    totalLines := lines.length }

/-- `defaultIgnoreDirs` of src/index.js line 10. -/
def defaultIgnoreDirs : List String := ["node_modules", "dist", "tests"]

/-- `prismaSchema` of src/index.js line 11. -/
def prismaSchema : String := "schema.prisma"

/-- Node `path.basename` (posix): strip trailing slashes, then keep the
part after the last slash. -/
def basenameChars (l : List Char) : List Char :=
  ((l.reverse.dropWhile (fun c => c = '/')).takeWhile (fun c => c ≠ '/')).reverse

/-- Node `path.extname` (posix): the part of the basename from its last
dot on, empty when there is no dot, when the only dot is leading, or when
the basename is exactly `..`. -/
def extnameChars (l : List Char) : List Char :=
  let b := basenameChars l
  if b = ['.', '.'] then []
  else
    let revAfter := b.reverse.takeWhile (fun c => c ≠ '.')
    if revAfter.length = b.length then []
    else if revAfter.length + 1 = b.length then []
    else '.' :: revAfter.reverse

/-- JavaScript `s.includes(sub)`: contiguous substring test. -/
def strIncludes (s sub : String) : Bool := decide (sub.toList <:+: s.toList)

/-- `isValidFile` of src/index.js lines 13-20: extension `.js` or `.ts`,
or basename `schema.prisma`, and no ignored directory name occurs as a
substring of the whole path. -/
def isValidFile (filePath : String) : Bool :=
  let ext := extnameChars filePath.toList
  let baseName := basenameChars filePath.toList
  (decide (ext = ".js".toList) || decide (ext = ".ts".toList)
      || decide (baseName = prismaSchema.toList))
    && !(defaultIgnoreDirs.any (fun dir => strIncludes filePath dir))

/-- Node `path.join(dir, file)` for a directory path with no trailing
slash: concatenation with one separator. -/
def pathJoin (dir file : String) : String := dir ++ "/" ++ file

/-- A directory entry as seen by `fs.readdirSync` + `fs.lstatSync`
(src/index.js lines 58-61): a regular file with its content, a
subdirectory with its own entries, or a symbolic link.  `lstatSync` does
not follow links, and the walk returns before ever looking at a link's
target (line 63-65), so the model does not carry the target. -/
inductive Entry where
  | file (name : String) (content : String)
  | dir (name : String) (entries : List Entry)
  | symlink (name : String)
deriving Repr

/-- The record returned by `processDirectory` (src/index.js lines
96-104). -/
structure AggregateMetrics where
  totalLines : Nat
  totalCharacters : Nat
  commentLines : Nat
  blankLines : Nat
  codeAndCommentLines : Nat
  fileCount : Nat
  directoryCount : Nat
deriving Repr, DecidableEq

/-- The initial all-zero accumulator of src/index.js lines 50-56. -/
def AggregateMetrics.zero : AggregateMetrics := ⟨0, 0, 0, 0, 0, 0, 0⟩

/-- Pointwise sum of two aggregates; the `+=` folds of src/index.js lines
78-84 and 87-92 are sums of this shape. -/
def AggregateMetrics.add (a b : AggregateMetrics) : AggregateMetrics :=
  ⟨a.totalLines + b.totalLines, a.totalCharacters + b.totalCharacters,
   a.commentLines + b.commentLines, a.blankLines + b.blankLines,
   a.codeAndCommentLines + b.codeAndCommentLines,
   a.fileCount + b.fileCount, a.directoryCount + b.directoryCount⟩

/-- What one eligible file adds to the accumulator (src/index.js lines
86-92): note line 87 adds the per-file `lines` (code lines) into the
aggregate `totalLines`, and per-file `totalLines` is never read. -/
def fileContribution (m : FileMetrics) : AggregateMetrics :=
  ⟨m.lines, m.characters, m.commentLines, m.blankLines,
   m.codeAndCommentLines, 1, 0⟩

mutual
/-- The per-entry body of the `forEach` of src/index.js lines 59-93, as
the contribution the entry makes to the enclosing accumulator: symbolic
links contribute nothing (lines 63-65); a directory contributes its
recursive aggregate with `directoryCount` increased by one (lines 67-84);
a file contributes `fileContribution` of its metrics when eligible and
nothing otherwise (lines 85-93). -/
def processEntry (dirPath : String) : Entry → AggregateMetrics
  | .symlink _ => .zero
  | .dir name sub =>
      let r := processDirectory (pathJoin dirPath name) sub
      ⟨r.totalLines, r.totalCharacters, r.commentLines, r.blankLines,
       r.codeAndCommentLines, r.fileCount, r.directoryCount + 1⟩
  | .file name content =>
      if isValidFile (pathJoin dirPath name) then
        fileContribution (getFileMetrics content)
      else
        .zero

/-- `processDirectory` of src/index.js lines 49-105, on the entry listing
of the directory: the `forEach` over mutable accumulators starting from
zero is the sum of the per-entry contributions, taken in listing order. -/
def processDirectory (dirPath : String) : List Entry → AggregateMetrics
  | [] => .zero
  | e :: rest => (processEntry dirPath e).add (processDirectory dirPath rest)
end

/- ------------------------------------------------------------------
Specification-side functions, written from the spec's words, to compare
with the walk: the in-scope files of a subtree and its subdirectory
count. -/

mutual
/-- Modelled from the spec: the contents of the in-scope files an entry
contributes to the subtree of the directory `dirPath` (eligible regular
files; symbolic links nothing; directories their whole subtree). -/
def inScopeFilesEntry (dirPath : String) : Entry → List String
  | .symlink _ => []
  | .dir name sub => inScopeFilesList (pathJoin dirPath name) sub
  | .file name content =>
      if isValidFile (pathJoin dirPath name) then [content] else []

/-- Modelled from the spec: contents of all in-scope files in the subtree
rooted at a directory with path `dirPath` and the given entries. -/
def inScopeFilesList (dirPath : String) : List Entry → List String
  | [] => []
  | e :: rest => inScopeFilesEntry dirPath e ++ inScopeFilesList dirPath rest
end

mutual
/-- Modelled from the spec: the number of non-symlink directories an
entry contributes to the subtree (itself plus its own subtree for a
directory, zero otherwise). -/
def countDirsEntry : Entry → Nat
  | .symlink _ => 0
  | .dir _ sub => countDirsList sub + 1
  | .file _ _ => 0

/-- Modelled from the spec: the number of non-symlink subdirectories
anywhere below a directory with the given entries (the directory itself
not included). -/
def countDirsList : List Entry → Nat
  | [] => 0
  | e :: rest => countDirsEntry e + countDirsList rest
end

/-- Sum of one `FileMetrics` field over a list of file contents. -/
def sumField (f : FileMetrics → Nat) (cs : List String) : Nat :=
  (cs.map (fun c => f (getFileMetrics c))).sum

/-- Modelled from the spec: the aggregate a subtree should produce — each
metric field the sum of a per-file field over the in-scope files, the
file count their number, the directory count the subdirectory count. -/
def specAggregate (dirPath : String) (entries : List Entry) : AggregateMetrics :=
  let cs := inScopeFilesList dirPath entries
  ⟨sumField (fun m => m.lines) cs, sumField (fun m => m.characters) cs,
   sumField (fun m => m.commentLines) cs, sumField (fun m => m.blankLines) cs,
   sumField (fun m => m.codeAndCommentLines) cs, cs.length,
   countDirsList entries⟩

/-- Reordering of a directory tree: two entry lists are related when one
is obtained from the other by permuting the entry listing of the tree's
directories (at the top level and, through `consDir`, at any depth).  The
`nil` / cons / `swap` / `trans` presentation is the standard inductive
presentation of list permutations, with the cons case additionally
allowing a reordering inside a subdirectory. -/
inductive TPerm : List Entry → List Entry → Prop where
  | nil : TPerm [] []
  | consFile (n c : String) {es es' : List Entry} : TPerm es es' →
      TPerm (.file n c :: es) (.file n c :: es')
  | consSym (n : String) {es es' : List Entry} : TPerm es es' →
      TPerm (.symlink n :: es) (.symlink n :: es')
  | consDir (n : String) {sub sub' es es' : List Entry} : TPerm sub sub' →
      TPerm es es' → TPerm (.dir n sub :: es) (.dir n sub' :: es')
  | swap (a b : Entry) (es : List Entry) : TPerm (a :: b :: es) (b :: a :: es)
  | trans {es es' es'' : List Entry} : TPerm es es' → TPerm es' es'' →
      TPerm es es''

/-- Remove every symbolic-link entry, at every depth, from an entry
list. -/
def stripSymlinks : List Entry → List Entry
  | [] => []
  | .symlink _ :: rest => stripSymlinks rest
  | .file n c :: rest => .file n c :: stripSymlinks rest
  | .dir n sub :: rest => .dir n (stripSymlinks sub) :: stripSymlinks rest

/- ------------------------------------------------------------------
The presentation layer's averages (src/index.js lines 118-122), over the
rationals: JavaScript `a / b` on the guarded branch is exact enough for
the `fileCount == 0` claim, which only exercises the unguarded `0`. -/

/-- `avgLinesPerFile` of src/index.js line 118. -/
def avgLinesPerFile (m : AggregateMetrics) : ℚ :=
  if m.fileCount > 0 then (m.totalLines : ℚ) / (m.fileCount : ℚ) else 0

/-- `avgCharactersPerFile` of src/index.js line 119. -/
def avgCharactersPerFile (m : AggregateMetrics) : ℚ :=
  if m.fileCount > 0 then (m.totalCharacters : ℚ) / (m.fileCount : ℚ) else 0

/-- `avgCommentLinesPerFile` of src/index.js line 120. -/
def avgCommentLinesPerFile (m : AggregateMetrics) : ℚ :=
  if m.fileCount > 0 then (m.commentLines : ℚ) / (m.fileCount : ℚ) else 0

/-- `avgBlankLinesPerFile` of src/index.js line 121. -/
def avgBlankLinesPerFile (m : AggregateMetrics) : ℚ :=
  if m.fileCount > 0 then (m.blankLines : ℚ) / (m.fileCount : ℚ) else 0

/-- `avgCodeAndCommentLinesPerFile` of src/index.js line 122. -/
def avgCodeAndCommentLinesPerFile (m : AggregateMetrics) : ℚ :=
  if m.fileCount > 0 then (m.codeAndCommentLines : ℚ) / (m.fileCount : ℚ) else 0

/- ------------------------------------------------------------------
Fallible model of the walk: `fs.readdirSync` and `fs.readFileSync` throw
on unreadable paths and nothing in src/index.js catches, so the walk
either returns a full aggregate or propagates the first error.  A
directory carries `none` when listing it would throw, a file carries
`none` when reading it would throw. -/

/-- A directory entry over a filesystem in which reads can fail. -/
inductive FSEntry where
  | file (name : String) (content : Option String)
  | dir (name : String) (listing : Option (List FSEntry))
  | symlink (name : String)
deriving Repr

mutual
/-- Fallible per-entry contribution, mirroring `processEntry`: an
eligible file whose read throws propagates the error (src/index.js line
23); a directory whose recursive walk throws propagates it. -/
def processEntryE (dirPath : String) : FSEntry → Except Unit AggregateMetrics
  | .symlink _ => .ok .zero
  | .dir name listing =>
      match processDirectoryE (pathJoin dirPath name) listing with
      | .error e => .error e
      | .ok r => .ok ⟨r.totalLines, r.totalCharacters, r.commentLines,
          r.blankLines, r.codeAndCommentLines, r.fileCount,
          r.directoryCount + 1⟩
  | .file name content =>
      if isValidFile (pathJoin dirPath name) then
        match content with
        | none => .error ()
        | some c => .ok (fileContribution (getFileMetrics c))
      else
        .ok .zero

/-- Fallible `processDirectory`: throws when listing the directory
throws (src/index.js line 58), otherwise folds the entries in order,
propagating the first error. -/
def processDirectoryE (dirPath : String) :
    Option (List FSEntry) → Except Unit AggregateMetrics
  | none => .error ()
  | some es => processListE dirPath es

/-- The fallible fold over an entry listing. -/
def processListE (dirPath : String) : List FSEntry → Except Unit AggregateMetrics
  | [] => .ok .zero
  | e :: rest =>
      match processEntryE dirPath e with
      | .error err => .error err
      | .ok a =>
          match processListE dirPath rest with
          | .error err => .error err
          | .ok b => .ok (a.add b)
end

/-- Whether an `Except` result is a success. -/
def isOkE (x : Except Unit AggregateMetrics) : Bool :=
  match x with
  | .ok _ => true
  | .error _ => false

mutual
/-- Modelled from the spec: an entry makes the walk fail when it is a
directory whose subtree has a failing read, or an eligible regular file
that cannot be read.  Symbolic links and ineligible files never fail. -/
def entryFails (dirPath : String) : FSEntry → Bool
  | .symlink _ => false
  | .dir name listing => listingFails (pathJoin dirPath name) listing
  | .file name content =>
      isValidFile (pathJoin dirPath name) && content.isNone

/-- Modelled from the spec: a directory fails when it cannot be listed
or some entry of it fails. -/
def listingFails (dirPath : String) : Option (List FSEntry) → Bool
  | none => true
  | some es => listFails dirPath es

/-- Modelled from the spec: some entry of the list fails. -/
def listFails (dirPath : String) : List FSEntry → Bool
  | [] => false
  | e :: rest => entryFails dirPath e || listFails dirPath rest
end

/- ------------------------------------------------------------------
Helper lemmas. -/

theorem AggregateMetrics.zero_add (b : AggregateMetrics) :
    AggregateMetrics.zero.add b = b := by
  cases b
  simp [AggregateMetrics.add, AggregateMetrics.zero]

theorem AggregateMetrics.add_zero (a : AggregateMetrics) :
    a.add AggregateMetrics.zero = a := by
  cases a
  simp [AggregateMetrics.add, AggregateMetrics.zero]

theorem AggregateMetrics.add_left_comm (a b c : AggregateMetrics) :
    a.add (b.add c) = b.add (a.add c) := by
  cases a; cases b; cases c
  simp only [AggregateMetrics.add, AggregateMetrics.mk.injEq]
  omega

/-- The aggregate one entry owes according to the specification-side
functions: sums over the in-scope files it contributes, its file count,
its directory count. -/
def specAggregateEntry (dirPath : String) (e : Entry) : AggregateMetrics :=
  let cs := inScopeFilesEntry dirPath e
  ⟨sumField (fun m => m.lines) cs, sumField (fun m => m.characters) cs,
   sumField (fun m => m.commentLines) cs, sumField (fun m => m.blankLines) cs,
   sumField (fun m => m.codeAndCommentLines) cs, cs.length, countDirsEntry e⟩

theorem specAggregate_cons (d : String) (e : Entry) (rest : List Entry) :
    specAggregate d (e :: rest)
      = (specAggregateEntry d e).add (specAggregate d rest) := by
  simp [specAggregate, specAggregateEntry, inScopeFilesList, countDirsList,
    sumField, AggregateMetrics.add]

mutual
theorem processEntry_eq_spec : ∀ (d : String) (e : Entry),
    processEntry d e = specAggregateEntry d e
  | d, .symlink n => rfl
  | d, .file n c => by
      by_cases h : isValidFile (pathJoin d n) = true
      · simp [processEntry, specAggregateEntry, inScopeFilesEntry, h, sumField,
          fileContribution, countDirsEntry]
      · simp [processEntry, specAggregateEntry, inScopeFilesEntry, h, sumField,
          AggregateMetrics.zero, countDirsEntry]
  | d, .dir n sub => by
      have ih := processDirectory_eq_spec (pathJoin d n) sub
      simp [processEntry, specAggregateEntry, inScopeFilesEntry, countDirsEntry,
        ih, specAggregate]

theorem processDirectory_eq_spec : ∀ (d : String) (es : List Entry),
    processDirectory d es = specAggregate d es
  | d, [] => rfl
  | d, e :: rest => by
      have ih1 := processEntry_eq_spec d e
      have ih2 := processDirectory_eq_spec d rest
      rw [specAggregate_cons]
      simp only [processDirectory]
      rw [ih1, ih2]
end

theorem stripSymlinks_processDirectory : ∀ (d : String) (es : List Entry),
    processDirectory d (stripSymlinks es) = processDirectory d es
  | _, [] => by simp [stripSymlinks]
  | d, .symlink n :: rest => by
      have ih := stripSymlinks_processDirectory d rest
      simp [stripSymlinks, processDirectory, processEntry, ih,
        AggregateMetrics.zero_add]
  | d, .file n c :: rest => by
      have ih := stripSymlinks_processDirectory d rest
      simp [stripSymlinks, processDirectory, ih]
  | d, .dir n sub :: rest => by
      have ih1 := stripSymlinks_processDirectory (pathJoin d n) sub
      have ih2 := stripSymlinks_processDirectory d rest
      simp [stripSymlinks, processDirectory, processEntry, ih1, ih2]

theorem tperm_processDirectory {es es' : List Entry} (h : TPerm es es') :
    ∀ d : String, processDirectory d es = processDirectory d es' := by
  induction h with
  | nil => intro d; rfl
  | consFile n c _ ih => intro d; simp [processDirectory, ih d]
  | consSym n _ ih => intro d; simp [processDirectory, ih d]
  | consDir n _ _ ih1 ih2 =>
      intro d
      simp [processDirectory, processEntry, ih1 (pathJoin d n), ih2 d]
  | swap a b es =>
      intro d
      simp only [processDirectory]
      exact AggregateMetrics.add_left_comm _ _ _
  | trans _ _ ih1 ih2 => intro d; rw [ih1 d, ih2 d]

theorem infixRev_iff {m x : List Char} : m <:+: x.reverse ↔ m.reverse <:+: x := by
  constructor
  · intro h
    have h2 := List.reverse_infix.mpr h
    simpa using h2
  · intro h
    have h2 := List.reverse_infix.mpr h
    simpa using h2

theorem not_ws_infix_dropWhile {m : List Char} (hm : m ≠ [])
    (hw : ∀ c ∈ m, c.isWhitespace = false) (l : List Char) :
    (m <:+: l.dropWhile (fun c => c.isWhitespace)) ↔ m <:+: l := by
  induction l with
  | nil => simp
  | cons c t ih =>
    rw [List.dropWhile_cons]
    by_cases hc : c.isWhitespace = true
    · rw [if_pos hc, ih]
      constructor
      · exact fun h => List.infix_cons h
      · rintro ⟨u, v, huv⟩
        cases u with
        | nil =>
          cases m with
          | nil => exact absurd rfl hm
          | cons m0 m' =>
            simp only [List.nil_append, List.cons_append] at huv
            injection huv with h0 h1
            have hmem := hw m0 (List.mem_cons_self m0 m')
            rw [h0, hc] at hmem
            exact absurd hmem (by simp)
        | cons u0 u' =>
          simp only [List.cons_append] at huv
          injection huv with h0 h1
          exact ⟨u', v, h1⟩
    · rw [if_neg hc]

theorem not_ws_infix_jsTrim {m : List Char} (hm : m ≠ [])
    (hw : ∀ c ∈ m, c.isWhitespace = false) (l : List Char) :
    m <:+: jsTrim l ↔ m <:+: l := by
  have hm' : m.reverse ≠ [] := by simpa using hm
  have hw' : ∀ c ∈ m.reverse, c.isWhitespace = false := by
    intro c hc
    exact hw c (List.mem_reverse.mp hc)
  unfold jsTrim
  rw [infixRev_iff, not_ws_infix_dropWhile hm' hw' _, infixRev_iff,
    List.reverse_reverse, not_ws_infix_dropWhile hm hw _]

/-- Every line satisfies exactly one of the blank, comment, code tests:
the three filters of src/index.js lines 25-33 partition the lines. -/
theorem classification_exclusive (line : List Char) :
    (isBlankLine line).toNat + (isCommentLine line).toNat
      + (isCodeLine line).toNat = 1 := by
  simp only [isBlankLine, isCommentLine, isCodeLine]
  cases h : jsTrim line with
  | nil => decide
  | cons c t' =>
    cases h1 : decide (slcMarker <+: c :: t') <;>
      cases h2 : decide (boMarker <+: c :: t') <;>
        cases h3 : decide (bcMarker <:+ c :: t') <;> simp

theorem length_filter_partition {α : Type} (p q r : α → Bool) :
    ∀ l : List α, (∀ a ∈ l, (p a).toNat + (q a).toNat + (r a).toNat = 1) →
      (l.filter p).length + (l.filter q).length + (l.filter r).length = l.length
  | [], _ => rfl
  | a :: l, h => by
      have ih := length_filter_partition p q r l
        (fun b hb => h b (List.mem_cons_of_mem a hb))
      have ha := h a (List.mem_cons_self a l)
      cases hp : p a <;> cases hq : q a <;> cases hr : r a <;>
        simp [hp, hq, hr, List.filter_cons] at ha ⊢ <;> omega

mutual
theorem processEntryE_isOk : ∀ (d : String) (e : FSEntry),
    isOkE (processEntryE d e) = !(entryFails d e)
  | _, .symlink _ => rfl
  | d, .dir n listing => by
      have ih := processDirectoryE_isOk (pathJoin d n) listing
      simp only [processEntryE, entryFails]
      cases h : processDirectoryE (pathJoin d n) listing with
      | error err => rw [h] at ih; simp [isOkE] at ih ⊢; simp [← ih]
      | ok r => rw [h] at ih; simp [isOkE] at ih ⊢; simp [← ih]
  | d, .file n c => by
      by_cases h : isValidFile (pathJoin d n) = true
      · cases c with
        | none => simp [processEntryE, entryFails, h, isOkE]
        | some s => simp [processEntryE, entryFails, h, isOkE]
      · simp [processEntryE, entryFails, h, isOkE]

theorem processDirectoryE_isOk : ∀ (d : String) (l : Option (List FSEntry)),
    isOkE (processDirectoryE d l) = !(listingFails d l)
  | _, none => rfl
  | d, some es => by
      have ih := processListE_isOk d es
      simp [processDirectoryE, listingFails, ih]

theorem processListE_isOk : ∀ (d : String) (es : List FSEntry),
    isOkE (processListE d es) = !(listFails d es)
  | _, [] => rfl
  | d, e :: rest => by
      have ih1 := processEntryE_isOk d e
      have ih2 := processListE_isOk d rest
      simp only [processListE, listFails]
      cases h1 : processEntryE d e with
      | error err =>
          rw [h1] at ih1
          simp [isOkE] at ih1 ⊢
          simp [← ih1]
      | ok a =>
          rw [h1] at ih1
          simp [isOkE] at ih1 ⊢
          cases h2 : processListE d rest with
          | error err =>
              rw [h2] at ih2
              simp [isOkE] at ih2 ⊢
              simp [← ih1, ← ih2]
          | ok b =>
              rw [h2] at ih2
              simp [isOkE] at ih2 ⊢
              simp [ih1, ih2]
end

/- ------------------------------------------------------------------
Claim theorems. -/

/-- C1 (amended): the aggregate returned by `processDirectory` sums, over
the in-scope files of the subtree, the five per-file fields the code
actually folds — its `totalLines` field is the sum of the per-file code
line counts `lines`, not of the per-file `totalLines`, which is never
aggregated — together with the in-scope file count and the subdirectory
count. -/
theorem c1_aggregate_sums (d : String) (es : List Entry) :
    processDirectory d es =
      ⟨sumField (fun m => m.lines) (inScopeFilesList d es),
       sumField (fun m => m.characters) (inScopeFilesList d es),
       sumField (fun m => m.commentLines) (inScopeFilesList d es),
       sumField (fun m => m.blankLines) (inScopeFilesList d es),
       sumField (fun m => m.codeAndCommentLines) (inScopeFilesList d es),
       (inScopeFilesList d es).length,
       countDirsList es⟩ := by
  rw [processDirectory_eq_spec]
  rfl

/-- C1 counterexample: for the tree holding the single in-scope file
`a.js` with content `"// c\n"`, the aggregate `totalLines` is 0 (no code
lines) while the sum of the per-file `totalLines` is 2, so the aggregate
`totalLines` is not the sum of the per-file `totalLines`. -/
theorem c1_counterexample :
    ¬ ((processDirectory "/r" [Entry.file "a.js" "// c\n"]).totalLines
        = sumField (fun m => m.totalLines)
            (inScopeFilesList "/r" [Entry.file "a.js" "// c\n"])) := by
  decide

/-- The four-line example file of the spec, with its trailing newline. -/
def exampleContent : String :=
  "// header comment\nconst x = 1; // trailing\n\nfunction f() \x7b\x7d\n"

/-- C2 counterexample: on the spec's example file the code does not
return the claimed record `blankLines = 1`, `mixedLines = 1` (the final
empty line produced by the trailing newline is also blank, and line 1
also contains a marker, so both counts are 2). -/
theorem c2_counterexample :
    ¬ (getFileMetrics exampleContent = ⟨2, 40, 1, 1, 1, 5⟩) := by
  decide

/-- C2 (amended): on the spec's example file `getFileMetrics` returns
`totalLines = 5`, `blankLines = 2` (the empty line and the final empty
string of the trailing newline), `commentLines = 1`, code `lines = 2`,
`codeAndCommentLines = 2` (lines 1 and 2 both contain a marker), and
`characters` equal to the combined length of lines 2 and 4 joined by one
newline. -/
theorem c2_example_metrics :
    getFileMetrics exampleContent = ⟨2, 40, 1, 2, 2, 5⟩ ∧
    (getFileMetrics exampleContent).characters
      = "const x = 1; // trailing".length + 1
        + "function f() \x7b\x7d".length := by
  constructor
  · decide
  · decide

/-- C3: a line is comment-classified iff its trimmed form starts with
`//` or `/*` or ends with `*/`; code-classified iff non-blank and not
comment-classified; blank iff its trimmed form is empty; and mixed iff
non-blank and containing one of the three markers anywhere in the
(untrimmed) line. -/
theorem c3_line_classification (line : List Char) :
    (isCommentLine line = true ↔
      (slcMarker <+: jsTrim line ∨ boMarker <+: jsTrim line
        ∨ bcMarker <:+ jsTrim line)) ∧
    (isCodeLine line = true ↔
      (¬ isBlankLine line = true ∧ ¬ isCommentLine line = true)) ∧
    (isBlankLine line = true ↔ jsTrim line = []) ∧
    (isMixedLine line = true ↔
      (jsTrim line ≠ [] ∧ (slcMarker <:+: line ∨ boMarker <:+: line
        ∨ bcMarker <:+: line))) := by
  have e1 := not_ws_infix_jsTrim (m := slcMarker) (by decide) (by decide) line
  have e2 := not_ws_infix_jsTrim (m := boMarker) (by decide) (by decide) line
  have e3 := not_ws_infix_jsTrim (m := bcMarker) (by decide) (by decide) line
  refine ⟨?_, ?_, ?_, ?_⟩
  · simp [isCommentLine, or_assoc]
  · simp [isCodeLine, isBlankLine, isCommentLine, List.isEmpty_iff, not_or,
      and_assoc]
  · simp [isBlankLine, List.isEmpty_iff]
  · simp [isMixedLine, List.isEmpty_iff, e1, e2, e3, or_assoc]

/-- The specification-side eligibility predicate, written from the
claim's words: the extension is `.js` or `.ts` or the basename is
`schema.prisma`, and no ignored directory name occurs as a substring of
the full path string. -/
def isValidFileSpec (p : String) : Prop :=
  (extnameChars p.toList = ".js".toList ∨ extnameChars p.toList = ".ts".toList
    ∨ basenameChars p.toList = prismaSchema.toList)
  ∧ ∀ d ∈ defaultIgnoreDirs, ¬ (d.toList <:+: p.toList)

/-- C4: `isValidFile` accepts exactly the paths of the right extension
or basename whose full path string contains none of the ignored
directory names as a substring; in particular the ignored-name substring
test excludes `/tmp/xnode_modulesy/app.js`, where `node_modules` occurs
outside a real path segment. -/
theorem c4_isValidFile_iff :
    (∀ p : String, isValidFile p = true ↔ isValidFileSpec p) ∧
    isValidFile "/tmp/xnode_modulesy/app.js" = false := by
  constructor
  · intro p
    simp [isValidFile, isValidFileSpec, strIncludes, defaultIgnoreDirs,
      or_assoc]
  · decide

/-- C5: symbolic-link entries contribute zero to every metric of the
walk: removing every symlink entry, at every depth, leaves the result of
`processDirectory` unchanged, so a symlink is not counted in `fileCount`
or `directoryCount` and is never recursed into. -/
theorem c5_symlinks_contribute_zero (d : String) (es : List Entry) :
    processDirectory d (stripSymlinks es) = processDirectory d es :=
  stripSymlinks_processDirectory d es

/-- C6: the `directoryCount` returned by `processDirectory` is the
number of non-symlink subdirectories anywhere in the subtree, the root
itself not counted, each counted exactly once regardless of depth. -/
theorem c6_directoryCount (d : String) (es : List Entry) :
    (processDirectory d es).directoryCount = countDirsList es := by
  rw [processDirectory_eq_spec]
  rfl

/-- C7: reordering the entry listing of any directory of the tree leaves
the aggregate of `processDirectory` — in particular its `fileCount` and
`directoryCount` — unchanged: the per-entry fold is commutative and
associative. -/
theorem c7_perm_invariant (d : String) {es es' : List Entry}
    (h : TPerm es es') :
    processDirectory d es = processDirectory d es' :=
  tperm_processDirectory h d

/-- Witness for C7: swapping the two entries of a concrete listing. -/
theorem c7_perm_invariant_witness :
    TPerm [Entry.file "a.js" "x", Entry.symlink "s"]
        [Entry.symlink "s", Entry.file "a.js" "x"] ∧
    processDirectory "/r" [Entry.file "a.js" "x", Entry.symlink "s"]
      = processDirectory "/r" [Entry.symlink "s", Entry.file "a.js" "x"] :=
  ⟨TPerm.swap _ _ _, c7_perm_invariant "/r" (TPerm.swap _ _ _)⟩

/-- C8: when `fileCount` is zero each of the five derived averages of
the presentation layer is exactly 0 — the guarded branch never divides. -/
theorem c8_zero_files_averages (m : AggregateMetrics)
    (h : m.fileCount = 0) :
    avgLinesPerFile m = 0 ∧ avgCharactersPerFile m = 0
      ∧ avgCommentLinesPerFile m = 0 ∧ avgBlankLinesPerFile m = 0
      ∧ avgCodeAndCommentLinesPerFile m = 0 := by
  simp [avgLinesPerFile, avgCharactersPerFile, avgCommentLinesPerFile,
    avgBlankLinesPerFile, avgCodeAndCommentLinesPerFile, h]

/-- Witness for C8: the all-zero aggregate has `fileCount = 0` and all
five averages are 0. -/
theorem c8_zero_files_averages_witness :
    AggregateMetrics.zero.fileCount = 0
      ∧ (avgLinesPerFile AggregateMetrics.zero = 0
        ∧ avgCharactersPerFile AggregateMetrics.zero = 0
        ∧ avgCommentLinesPerFile AggregateMetrics.zero = 0
        ∧ avgBlankLinesPerFile AggregateMetrics.zero = 0
        ∧ avgCodeAndCommentLinesPerFile AggregateMetrics.zero = 0) :=
  ⟨rfl, c8_zero_files_averages AggregateMetrics.zero rfl⟩

/-- C9: the fallible walk returns an error — no aggregate at all — iff
the root directory cannot be listed or some nested directory listing or
eligible-file read in the subtree fails; otherwise it returns the full
aggregate. -/
theorem c9_failure_iff (d : String) (l : Option (List FSEntry)) :
    (processDirectoryE d l = Except.error ()) ↔ listingFails d l = true := by
  have h := processDirectoryE_isOk d l
  cases hx : processDirectoryE d l with
  | error err =>
      rw [hx] at h
      simp [isOkE] at h
      simp [h]
  | ok r =>
      rw [hx] at h
      simp [isOkE] at h
      simp [h]

/-- C10: the blank, comment and code classifications form a strict
partition of a file's lines — every line satisfies exactly one of the
three tests, and the three counts of `getFileMetrics` sum to
`totalLines`. -/
theorem c10_partition (content : String) (line : List Char) :
    (isBlankLine line).toNat + (isCommentLine line).toNat
      + (isCodeLine line).toNat = 1 ∧
    (getFileMetrics content).blankLines + (getFileMetrics content).commentLines
        + (getFileMetrics content).lines
      = (getFileMetrics content).totalLines := by
  refine ⟨classification_exclusive line, ?_⟩
  simp only [getFileMetrics]
  exact length_filter_partition _ _ _ _ (fun a _ => classification_exclusive a)
